import Mathlib

/-!
Verification of the dbcat catalog persistence and reconciliation engine.

This file shallowly embeds the core of the `tokern/dbcat` repository:
the reconciling upsert store (`src/dbcat/catalog/catalog.py`), the
include/exclude pattern filter (`src/dbcat/generators.py`,
`src/dbcat/catalog/db.py`), the scan orchestrator
(`src/dbcat/catalog/db.py`), the query surface for latest job executions
and column lineage (`src/dbcat/catalog/catalog.py`), and the source
registration helpers (`src/dbcat/api.py`).

The relational store is modelled as explicit lists of rows; SQLAlchemy
sessions become explicit state passing and fallible operations return
`Except`.  Python's `re` module (an external collaborator) is modelled
for the literal-pattern fragment: `re.compile(p, re.IGNORECASE).search(name)`
succeeds exactly when `p` occurs, case-insensitively, as a substring of
`name`.
-/

namespace DbCat

/-! ## Model of the regex collaborator (Python `re`, literal patterns) -/

/-- `startsWithL hay pat`: `pat` is an initial segment of `hay`. -/
def startsWithL : List Char → List Char → Bool
  | _, [] => true
  | [], _ :: _ => false
  | a :: as, b :: bs => (a == b) && startsWithL as bs

/-- `containsL hay pat`: `pat` occurs as a contiguous substring of `hay`. -/
def containsL : List Char → List Char → Bool
  | [], pat => startsWithL [] pat
  | h :: t, pat => startsWithL (h :: t) pat || containsL t pat

/-- Collaborator model (Python standard library `re`, not repository code):
`re.compile(pattern, re.IGNORECASE).search(name) is not None` for the
literal-pattern fragment, i.e. a case-insensitive substring search of
`pattern` inside `name` (a search, not a full match). -/
def reSearchCI (pattern name : String) : Bool :=
  containsL (name.toList.map Char.toLower) (pattern.toList.map Char.toLower)

/-! ## Pattern filter (src/dbcat/generators.py:19-39) -/

/-- `CatalogObject = namedtuple("CatalogObject", ["name", "id"])`
(src/dbcat/generators.py:10). -/
structure CatalogObject where
  name : String
  id : Nat
deriving DecidableEq

/-- Embeds `filter_objects` (src/dbcat/generators.py:19-39).
If the include list is present and non-empty, the survivors are the union,
over the include patterns, of the objects whose name the pattern matches
(the Python code accumulates a `set`; here `List.union`, which has the same
membership).  Then each exclude pattern filters out the objects whose name
it matches. -/
def filter_objects (include_regex_str exclude_regex_str : Option (List String))
    (objects : List CatalogObject) : List CatalogObject :=
  let objects1 :=
    match include_regex_str with
    | some pats =>
      if pats.length > 0 then
        pats.foldl (fun acc p => acc ∪ objects.filter (fun m => reSearchCI p m.name)) []
      else objects
    | none => objects
  match exclude_regex_str with
  | some pats =>
    if pats.length > 0 then
      pats.foldl (fun acc p => acc.filter (fun m => !(reSearchCI p m.name))) objects1
    else objects1
  | none => objects1

/-- Embeds `DbScanner._test_regex` (src/dbcat/catalog/db.py:94-112):
`passed` starts false, is or-ed with a search result for every include
pattern (or set true when there are none), then and-ed with the negated
search result for every exclude pattern. -/
def _test_regex (name : String)
    (include_regex exclude_regex : Option (List String)) : Bool :=
  let passed :=
    match include_regex with
    | some l =>
      if l.length > 0 then l.foldl (fun acc p => acc || reSearchCI p name) false
      else true
    | none => true
  match exclude_regex with
  | some l =>
    if l.length > 0 then l.foldl (fun acc p => acc && !(reSearchCI p name)) passed
    else passed
  | none => passed

/-! ## Entity model (src/dbcat/catalog/models.py) and the backing store

Each SQLAlchemy model becomes a row structure; the store is a record of
row lists.  Surrogate ids are assigned as `max existing id + 1`
(SQLite/`autoincrement` behaviour).  Unique constraints are taken from
`models.py`: `sources.name`; `schemata (source_id, name)`;
`tables (schema_id, name)`; `columns (table_id, name)`;
`jobs.name` (globally, `models.py:331`) and `jobs (source_id, name)`;
`column_lineage (source_id, target_id, job_execution_id)`;
`job_executions` has none. -/

/-- Errors that the embedded operations can raise.  `integrityError` is
SQLAlchemy's unique-constraint violation; `noResultFound` and
`multipleResultsFound` are raised by `Query.one()`; `attributeError` and
`stopIteration` are the Python built-ins; `noMatchesError` is
`dbcat.generators.NoMatchesError`. -/
inductive PyError where
  | integrityError
  | noResultFound
  | multipleResultsFound
  | attributeError
  | stopIteration
  | noMatchesError
deriving DecidableEq

/-- A row of `sources` (`CatSource`, models.py:31-180).  `source_type` is
stored lowercased by `CatSource.__init__` (models.py:97-99).  The many
optional vendor fields (`uri`, `username`, ...) are modelled as the
association list of the fields that were actually supplied; an absent key
is a NULL column. -/
structure SourceRow where
  id : Nat
  name : String
  source_type : String
  extra : List (String × String)
deriving DecidableEq

/-- A row of `schemata` (`CatSchema`, models.py:183-205). -/
structure SchemaRow where
  id : Nat
  name : String
  source_id : Nat
deriving DecidableEq

/-- A row of `tables` (`CatTable`, models.py:217-243). -/
structure TableRow where
  id : Nat
  name : String
  schema_id : Nat
deriving DecidableEq

/-- A row of `columns` (`CatColumn`, models.py:267-324). -/
structure ColumnRow where
  id : Nat
  name : String
  data_type : String
  sort_order : Nat
  table_id : Nat
deriving DecidableEq

/-- A row of `jobs` (`Job`, models.py:327-339); `context` is the opaque
JSON payload. -/
structure JobRow where
  id : Nat
  name : String
  source_id : Nat
  context : String
deriving DecidableEq

/-- `JobExecutionStatus` (models.py:342-344). -/
inductive JobExecutionStatus where
  | success
  | failure
deriving DecidableEq

/-- A row of `job_executions` (`JobExecution`, models.py:347-362).
Timestamps are modelled as naturals. -/
structure JobExecutionRow where
  id : Nat
  job_id : Nat
  started_at : Nat
  ended_at : Nat
  status : JobExecutionStatus
deriving DecidableEq

/-- A row of `column_lineage` (`ColumnLineage`, models.py:365-390). -/
structure LineageRow where
  id : Nat
  source_id : Nat
  target_id : Nat
  job_execution_id : Nat
  context : String
deriving DecidableEq

/-- The catalog store: one list of rows per table. -/
structure CatalogState where
  sources : List SourceRow
  schemata : List SchemaRow
  tables : List TableRow
  columns : List ColumnRow
  jobs : List JobRow
  job_executions : List JobExecutionRow
  lineages : List LineageRow
deriving DecidableEq

/-- The empty catalog store. -/
def CatalogState.empty : CatalogState :=
  { sources := [], schemata := [], tables := [], columns := [], jobs := [],
    job_executions := [], lineages := [] }

/-- Next surrogate id for a table: `max id + 1` (SQLite rowid allocation). -/
def nextId (ids : List Nat) : Nat :=
  ids.foldl max 0 + 1

/-- Looks up an optional vendor field of a source row; `none` is NULL. -/
def lookupField (extra : List (String × String)) (k : String) : Option String :=
  (extra.find? (fun kv => kv.1 == k)).map (·.2)

/-- Python `str.lower()` over the ASCII fragment (collaborator model of
the standard library, used by `CatSource.__init__`, models.py:98). -/
def pyLower (s : String) : String :=
  ⟨s.data.map Char.toLower⟩

/-- The `filter_by` predicate of `Catalog._create` specialised to
`add_source`: all keyword arguments (`name`, `source_type` as passed, and
every supplied vendor field) must equal the row's columns
(catalog.py:87, catalog.py:89-90). -/
def sourceKwargsMatch (name source_type : String) (extra : List (String × String))
    (r : SourceRow) : Bool :=
  r.name == name && r.source_type == source_type &&
    extra.all (fun kv => lookupField r.extra kv.1 == some kv.2)

/-! ## Reconciling store (`Catalog._create`, src/dbcat/catalog/catalog.py:72-87)

`Catalog._create` is generic over the model kind: it builds the model
object from the merged keyword arguments, adds it to the session and
commits; if the commit raises `IntegrityError` (a unique-constraint
violation against the existing rows), it rolls the session back and
re-fetches `session.query(model).filter_by(**kwargs).one()` — `kwargs`
being only the arguments outside `create_method_kwargs`.  Each `add_*`
wrapper specialises `_create` to one model kind, fixing the target table,
the candidate row built by the model constructor, the unique-constraint
conflict test against an existing row, and the `filter_by` predicate of
the re-fetch. -/

/-- Embeds `Catalog._create` (catalog.py:72-87) over a generic row table.
`conflictPred` tells whether an existing row makes insertion of the
candidate `row` violate a unique constraint (`IntegrityError` at commit);
`fetchPred` is the `filter_by(**kwargs)` predicate of the re-fetch, whose
`.one()` raises `NoResultFound` on zero rows and `MultipleResultsFound` on
several. -/
def _create {α : Type} (rows : List α) (conflictPred fetchPred : α → Bool) (row : α) :
    Except PyError (α × List α) :=
  if rows.any conflictPred then
    match rows.filter fetchPred with
    | [r] => .ok (r, rows)
    | [] => .error .noResultFound
    | _ => .error .multipleResultsFound
  else .ok (row, rows ++ [row])

/-- Embeds `Catalog.add_source` (catalog.py:89-90) via `_create`: the
candidate row stores `source_type` lowercased (`CatSource.__init__`); a
duplicate `name` violates the unique constraint; the re-fetch filters by
every keyword argument of the call. -/
def add_source (name source_type : String) (extra : List (String × String))
    (st : CatalogState) : Except PyError (SourceRow × CatalogState) :=
  match _create st.sources (fun r => r.name == name)
      (sourceKwargsMatch name source_type extra)
      { id := nextId (st.sources.map (·.id)), name := name,
        source_type := pyLower source_type, extra := extra } with
  | .ok (r, rows) => .ok (r, { st with sources := rows })
  | .error e => .error e

/-- Embeds `Catalog.add_schema` (catalog.py:92-93) via `_create`: kwargs
are `name` and `source`; the unique constraint is `(source_id, name)`. -/
def add_schema (schema_name : String) (source_id : Nat) (st : CatalogState) :
    Except PyError (SchemaRow × CatalogState) :=
  match _create st.schemata
      (fun r => r.name == schema_name && r.source_id == source_id)
      (fun r => r.name == schema_name && r.source_id == source_id)
      { id := nextId (st.schemata.map (·.id)), name := schema_name,
        source_id := source_id } with
  | .ok (r, rows) => .ok (r, { st with schemata := rows })
  | .error e => .error e

/-- Embeds `Catalog.add_table` (catalog.py:95-96) via `_create`: kwargs
are `name` and `schema`; the unique constraint is `(schema_id, name)`. -/
def add_table (table_name : String) (schema_id : Nat) (st : CatalogState) :
    Except PyError (TableRow × CatalogState) :=
  match _create st.tables
      (fun r => r.name == table_name && r.schema_id == schema_id)
      (fun r => r.name == table_name && r.schema_id == schema_id)
      { id := nextId (st.tables.map (·.id)), name := table_name,
        schema_id := schema_id } with
  | .ok (r, rows) => .ok (r, { st with tables := rows })
  | .error e => .error e

/-- Embeds `Catalog.add_column` (catalog.py:98-106) via `_create`: kwargs
are `name` and `table`; `data_type` and `sort_order` travel in
`create_method_kwargs`, so they are set on the inserted candidate row but
play no part in the conflict re-fetch. -/
def add_column (column_name data_type : String) (sort_order : Nat) (table_id : Nat)
    (st : CatalogState) : Except PyError (ColumnRow × CatalogState) :=
  match _create st.columns
      (fun r => r.name == column_name && r.table_id == table_id)
      (fun r => r.name == column_name && r.table_id == table_id)
      { id := nextId (st.columns.map (·.id)), name := column_name,
        data_type := data_type, sort_order := sort_order, table_id := table_id } with
  | .ok (r, rows) => .ok (r, { st with columns := rows })
  | .error e => .error e

/-- Embeds `Catalog.add_job` (catalog.py:108-114) via `_create`: kwargs
are `name` and `source`; `context` travels in `create_method_kwargs`.
Insertion conflicts whenever the `name` is already taken by any job of any
source (`Job.name` is globally unique, models.py:331; the `(source_id,
name)` constraint of models.py:336 is subsumed), but the re-fetch filters
by both `name` and `source`. -/
def add_job (name : String) (source_id : Nat) (context : String) (st : CatalogState) :
    Except PyError (JobRow × CatalogState) :=
  match _create st.jobs (fun r => r.name == name)
      (fun r => r.name == name && r.source_id == source_id)
      { id := nextId (st.jobs.map (·.id)), name := name, source_id := source_id,
        context := context } with
  | .ok (r, rows) => .ok (r, { st with jobs := rows })
  | .error e => .error e

/-- Embeds `Catalog.add_job_execution` (catalog.py:116-129) via `_create`:
the `job_executions` table carries no unique constraint (models.py:347-357),
so insertion never conflicts and every call appends a fresh row. -/
def add_job_execution (job_id started_at ended_at : Nat) (status : JobExecutionStatus)
    (st : CatalogState) : Except PyError (JobExecutionRow × CatalogState) :=
  match _create st.job_executions (fun _ => false)
      (fun r => r.job_id == job_id && r.started_at == started_at &&
        r.ended_at == ended_at && r.status == status)
      { id := nextId (st.job_executions.map (·.id)), job_id := job_id,
        started_at := started_at, ended_at := ended_at, status := status } with
  | .ok (r, rows) => .ok (r, { st with job_executions := rows })
  | .error e => .error e

/-- Embeds `Catalog.add_column_lineage` (catalog.py:131-144) via `_create`:
kwargs are `source_id`, `target_id` and `job_execution_id`; `context`
travels in `create_method_kwargs`; the unique constraint is the triple. -/
def add_column_lineage (source_id target_id job_execution_id : Nat) (context : String)
    (st : CatalogState) : Except PyError (LineageRow × CatalogState) :=
  match _create st.lineages
      (fun r => r.source_id == source_id && r.target_id == target_id &&
        r.job_execution_id == job_execution_id)
      (fun r => r.source_id == source_id && r.target_id == target_id &&
        r.job_execution_id == job_execution_id)
      { id := nextId (st.lineages.map (·.id)), source_id := source_id,
        target_id := target_id, job_execution_id := job_execution_id,
        context := context } with
  | .ok (r, rows) => .ok (r, { st with lineages := rows })
  | .error e => .error e

/-! ## Query surface (src/dbcat/catalog/catalog.py:265-313) -/

/-- Picks the execution with the maximum `started_at` from a list,
keeping the earliest row (natural row order) among ties — the row that
`row_number() over (order by started_at desc)` ranks 1. -/
def argmaxStarted (l : List JobExecutionRow) : Option JobExecutionRow :=
  l.foldl
    (fun best e =>
      match best with
      | none => some e
      | some b => if b.started_at < e.started_at then some e else some b)
    none

/-- Embeds `Catalog._get_latest_job_executions` (catalog.py:265-281): of
the executions whose `job_id` is in `job_ids`, partition by `job_id`,
rank by `started_at` descending inside each partition, and return the ids
of the rank-1 rows. -/
def _get_latest_job_executions (job_ids : List Nat) (execs : List JobExecutionRow) :
    List Nat :=
  job_ids.foldr
    (fun jid acc =>
      match argmaxStarted (execs.filter (fun e => e.job_id == jid)) with
      | some e => e.id :: acc
      | none => acc)
    []

/-- Embeds `Catalog.get_latest_job_executions` (catalog.py:283-294): the
executions whose id is in the rank-1 subquery, in natural row order. -/
def get_latest_job_executions (job_ids : List Nat) (execs : List JobExecutionRow) :
    List JobExecutionRow :=
  execs.filter (fun e => (_get_latest_job_executions job_ids execs).contains e.id)

/-- Embeds `Catalog.get_column_lineages` (catalog.py:296-313): when
`job_ids` is present and non-empty, keep the edges whose
`job_execution_id` is in the latest-execution subquery; otherwise return
every edge. -/
def get_column_lineages (job_ids : Option (List Nat)) (st : CatalogState) :
    List LineageRow :=
  match job_ids with
  | some l =>
    if l.length > 0 then
      st.lineages.filter
        (fun e => (_get_latest_job_executions l st.job_executions).contains e.job_execution_id)
    else st.lineages
  | none => st.lineages

/-! ## Registration helpers (src/dbcat/api.py:145-274)

Each helper enters a context manager looked up as an attribute on the
`Catalog` object.  `Catalog` (catalog.py:29-429) defines the attributes
listed below — `managed_session` among them, `commit_context` not — so the
helpers that enter `catalog.commit_context` raise `AttributeError` at the
attribute lookup, before any database operation. -/

/-- The attributes of the `Catalog` class (catalog.py:29-429): the names
bound in `__init__` (catalog.py:30-34) and the methods and properties of
the class body. -/
def catalogAttributes : List String :=
  ["_engine", "_scoped_session", "_connection_args", "_current_session",
   "engine", "get_scoped_session", "managed_session", "close", "_create",
   "add_source", "add_schema", "add_table", "add_column", "add_job",
   "add_job_execution", "add_column_lineage", "add_task",
   "get_source", "get_schema", "get_table", "get_columns_for_table",
   "get_column", "get_job", "get_job_executions", "get_job_execution",
   "get_source_by_id", "get_schema_by_id", "get_table_by_id",
   "get_column_by_id", "get_job_by_id", "_get_latest_job_executions",
   "get_latest_job_executions", "get_column_lineages", "get_sources",
   "get_task_by_id", "get_tasks_by_app_name", "get_latest_task",
   "search_sources", "search_schema", "search_tables", "search_table",
   "search_column", "update_source", "set_column_pii_type"]

/-- Python attribute lookup on a `Catalog` instance. -/
def hasAttr (attr : String) : Bool :=
  catalogAttributes.contains attr

/-- Embeds `add_sqlite_source` (api.py:145-149): enters
`catalog.managed_session` and calls
`add_source(name=name, uri=str(path), source_type="sqlite")`. -/
def add_sqlite_source (name path : String) (st : CatalogState) :
    Except PyError (SourceRow × CatalogState) :=
  if hasAttr "managed_session" then
    add_source name "sqlite" [("uri", path)] st
  else .error .attributeError

/-- Embeds `add_postgresql_source` (api.py:152-170): enters
`catalog.commit_context` — an attribute `Catalog` does not define — so the
lookup raises `AttributeError` before `add_source` can run. -/
def add_postgresql_source (name username password database uri : String)
    (port : Option Nat) (st : CatalogState) : Except PyError (SourceRow × CatalogState) :=
  if hasAttr "commit_context" then
    add_source name "postgresql"
      ([("username", username), ("password", password), ("database", database),
        ("uri", uri)] ++ (match port with | some p => [("port", toString p)] | none => []))
      st
  else .error .attributeError

/-- Embeds `add_mysql_source` (api.py:173-191): enters
`catalog.commit_context`, which `Catalog` does not define. -/
def add_mysql_source (name username password database uri : String)
    (port : Option Nat) (st : CatalogState) : Except PyError (SourceRow × CatalogState) :=
  if hasAttr "commit_context" then
    add_source name "mysql"
      ([("username", username), ("password", password), ("database", database),
        ("uri", uri)] ++ (match port with | some p => [("port", toString p)] | none => []))
      st
  else .error .attributeError

/-- Embeds `add_redshift_source` (api.py:194-212): enters
`catalog.commit_context`, which `Catalog` does not define. -/
def add_redshift_source (name username password database uri : String)
    (port : Option Nat) (st : CatalogState) : Except PyError (SourceRow × CatalogState) :=
  if hasAttr "commit_context" then
    add_source name "redshift"
      ([("username", username), ("password", password), ("database", database),
        ("uri", uri)] ++ (match port with | some p => [("port", toString p)] | none => []))
      st
  else .error .attributeError

/-- Embeds `add_snowflake_source` (api.py:215-235): enters
`catalog.commit_context`, which `Catalog` does not define. -/
def add_snowflake_source (name account username password database warehouse role : String)
    (st : CatalogState) : Except PyError (SourceRow × CatalogState) :=
  if hasAttr "commit_context" then
    add_source name "snowflake"
      [("username", username), ("password", password), ("database", database),
       ("account", account), ("warehouse", warehouse), ("role", role)]
      st
  else .error .attributeError

/-- Embeds `add_athena_source` (api.py:238-258): enters
`catalog.commit_context`, which `Catalog` does not define. -/
def add_athena_source (name region_name s3_staging_dir : String)
    (aws_access_key_id aws_secret_access_key : Option String) (st : CatalogState) :
    Except PyError (SourceRow × CatalogState) :=
  if hasAttr "commit_context" then
    add_source name "athena"
      ([("region_name", region_name), ("s3_staging_dir", s3_staging_dir)] ++
        (match aws_access_key_id with | some v => [("aws_access_key_id", v)] | none => []) ++
        (match aws_secret_access_key with
         | some v => [("aws_secret_access_key", v)] | none => []))
      st
  else .error .attributeError

/-- Embeds `add_bigquery_source` (api.py:260-274): enters
`catalog.commit_context`, which `Catalog` does not define. -/
def add_bigquery_source (name username project_id key_path : String) (st : CatalogState) :
    Except PyError (SourceRow × CatalogState) :=
  if hasAttr "commit_context" then
    add_source name "bigquery"
      [("username", username), ("project_id", project_id), ("key_path", key_path)]
      st
  else .error .attributeError

/-! ## Scan orchestrator (src/dbcat/catalog/db.py:31-174, api.py:109-142)

The external extraction collaborator is modelled as the ordered list of
`TableMetadata` records it streams (databuilder's `TableMetadata`: a
schema name, a table name, and the ordered column list). -/

/-- One column of a streamed record: `ColumnMetadata` of the extraction
collaborator (name and vendor type string). -/
structure ColumnMetadata where
  name : String
  type : String
deriving DecidableEq

/-- One streamed record of the extraction collaborator. -/
structure TableMetadata where
  schema : String
  name : String
  columns : List ColumnMetadata
deriving DecidableEq

/-- The four pattern lists a `DbScanner` is constructed with
(db.py:32-88; the constructor normalises an absent or empty list to
`None`, which `_test_regex` treats identically). -/
structure ScanPatterns where
  include_schema_regex : Option (List String)
  exclude_schema_regex : Option (List String)
  include_table_regex : Option (List String)
  exclude_table_regex : Option (List String)

/-- Embeds `DbScanner._filter_rows` (db.py:114-126): the subsequence of
records whose schema passes the schema-level `_test_regex` and whose
table name passes the table-level `_test_regex`. -/
def _filter_rows (p : ScanPatterns) (records : List TableMetadata) :
    List TableMetadata :=
  records.filter
    (fun r =>
      _test_regex r.schema p.include_schema_regex p.exclude_schema_regex &&
        _test_regex r.name p.include_table_regex p.exclude_table_regex)

/-- The column loop of `DbScanner.scan` (db.py:155-164): `index` starts
at 0 for the record and each column is upserted with
`sort_order = index`; `index` and `column_count` step by one per column. -/
def scanColumns (table_id : Nat) (cols : List ColumnMetadata)
    (index column_count : Nat) (st : CatalogState) :
    Except PyError (Nat × CatalogState) :=
  match cols with
  | [] => .ok (column_count, st)
  | c :: rest =>
    match add_column c.name c.type index table_id st with
    | .error e => .error e
    | .ok (_, st') => scanColumns table_id rest (index + 1) (column_count + 1) st'

/-- The schema-cursor step of the `while record:` loop (db.py:143-149):
when the incoming record's schema differs from the current schema cursor,
upsert that schema and bump `schema_count`; otherwise keep the cursor. -/
def schemaStep (source_id : Nat) (cur : SchemaRow) (schema : String)
    (schema_count : Nat) (st : CatalogState) :
    Except PyError (SchemaRow × Nat × CatalogState) :=
  if schema != cur.name then
    match add_schema schema source_id st with
    | .error e => .error e
    | .ok (s, stx) => .ok (s, schema_count + 1, stx)
  else .ok (cur, schema_count, st)

/-- The `while record:` loop of `DbScanner.scan` (db.py:141-168): resolve
the schema cursor, upsert the table under it, then its columns; counts
accumulate across records. -/
def scanLoop (source_id : Nat) (cur : SchemaRow) (records : List TableMetadata)
    (schema_count table_count column_count : Nat) (st : CatalogState) :
    Except PyError ((Nat × Nat × Nat) × CatalogState) :=
  match records with
  | [] => .ok ((schema_count, table_count, column_count), st)
  | record :: rest =>
    match schemaStep source_id cur record.schema schema_count st with
    | .error e => .error e
    | .ok (cur', schema_count', st1) =>
      match add_table record.name cur'.id st1 with
      | .error e => .error e
      | .ok (tbl, st2) =>
        match scanColumns tbl.id record.columns 0 column_count st2 with
        | .error e => .error e
        | .ok (column_count', st3) =>
          scanLoop source_id cur' rest schema_count' (table_count + 1) column_count' st3

/-- Embeds `DbScanner.scan` (db.py:128-174): `next` on the filtered
stream raises `StopIteration` when it retains nothing; otherwise the first
record's schema is upserted (`schema_count = 1`) and the while loop
processes the retained records (the first record re-enters the loop with
the cursor it just created, so its schema test is false). -/
def scan (source_id : Nat) (p : ScanPatterns) (records : List TableMetadata)
    (st : CatalogState) : Except PyError ((Nat × Nat × Nat) × CatalogState) :=
  match _filter_rows p records with
  | [] => .error .stopIteration
  | record :: rest =>
    match add_schema record.schema source_id st with
    | .error e => .error e
    | .ok (schema0, st1) => scanLoop source_id schema0 (record :: rest) 1 0 0 st1

/-- Embeds the per-source body of `scan_sources` (api.py:129-142): run the
scanner and translate an escaping `StopIteration` into `NoMatchesError`. -/
def scan_source (source_id : Nat) (p : ScanPatterns) (records : List TableMetadata)
    (st : CatalogState) : Except PyError ((Nat × Nat × Nat) × CatalogState) :=
  match scan source_id p records st with
  | .error .stopIteration => .error .noMatchesError
  | r => r

/-! ## General lemmas about folds -/

theorem mem_foldl_union (pats : List String) (g : String → List CatalogObject)
    (init : List CatalogObject) (x : CatalogObject) :
    (x ∈ pats.foldl (fun acc p => acc ∪ g p) init) ↔
      x ∈ init ∨ ∃ p ∈ pats, x ∈ g p := by
  induction pats generalizing init with
  | nil => simp
  | cons h t ih =>
    simp only [List.foldl_cons, ih, List.mem_union_iff, List.mem_cons]
    constructor
    · rintro ((hx | hx) | ⟨p, hp, hx⟩)
      · exact Or.inl hx
      · exact Or.inr ⟨h, Or.inl rfl, hx⟩
      · exact Or.inr ⟨p, Or.inr hp, hx⟩
    · rintro (hx | ⟨p, (rfl | hp), hx⟩)
      · exact Or.inl (Or.inl hx)
      · exact Or.inl (Or.inr hx)
      · exact Or.inr ⟨p, hp, hx⟩

theorem mem_foldl_filter (pats : List String) (q : String → CatalogObject → Bool)
    (init : List CatalogObject) (x : CatalogObject) :
    (x ∈ pats.foldl (fun acc p => acc.filter (q p)) init) ↔
      x ∈ init ∧ ∀ p ∈ pats, q p x = true := by
  induction pats generalizing init with
  | nil => simp
  | cons h t ih =>
    simp only [List.foldl_cons, ih, List.mem_filter, List.mem_cons]
    constructor
    · rintro ⟨⟨hi, hq⟩, hall⟩
      exact ⟨hi, fun p hp => hp.elim (fun e => e ▸ hq) (hall p)⟩
    · rintro ⟨hi, hall⟩
      exact ⟨⟨hi, hall h (Or.inl rfl)⟩, fun p hp => hall p (Or.inr hp)⟩

theorem foldl_or_eq_true (l : List String) (f : String → Bool) (b : Bool) :
    (l.foldl (fun acc p => acc || f p) b = true) ↔ b = true ∨ ∃ p ∈ l, f p = true := by
  induction l generalizing b with
  | nil => simp
  | cons h t ih =>
    simp only [List.foldl_cons, ih, Bool.or_eq_true, List.mem_cons]
    constructor
    · rintro ((hb | hf) | ⟨p, hp, hf⟩)
      · exact Or.inl hb
      · exact Or.inr ⟨h, Or.inl rfl, hf⟩
      · exact Or.inr ⟨p, Or.inr hp, hf⟩
    · rintro (hb | ⟨p, (rfl | hp), hf⟩)
      · exact Or.inl (Or.inl hb)
      · exact Or.inl (Or.inr hf)
      · exact Or.inr ⟨p, hp, hf⟩

theorem foldl_and_eq_true (l : List String) (f : String → Bool) (b : Bool) :
    (l.foldl (fun acc p => acc && f p) b = true) ↔ b = true ∧ ∀ p ∈ l, f p = true := by
  induction l generalizing b with
  | nil => simp
  | cons h t ih =>
    simp only [List.foldl_cons, ih, Bool.and_eq_true, List.mem_cons]
    constructor
    · rintro ⟨⟨hb, hf⟩, hall⟩
      exact ⟨hb, fun p hp => hp.elim (fun e => e ▸ hf) (hall p)⟩
    · rintro ⟨hb, hall⟩
      exact ⟨⟨hb, hall h (Or.inl rfl)⟩, fun p hp => hall p (Or.inr hp)⟩

/-- C3: for every list of named objects and every pair of optional pattern
lists, `filter_objects` returns exactly the objects whose name matches at
least one include pattern (all objects when the include list is empty or
absent) minus the objects whose name matches at least one exclude pattern;
`DbScanner._test_regex` decides the same predicate on a single name.  A
match is the (case-insensitive, search-not-fullmatch) `reSearchCI` applied
to the bare name; an object matching both an include and an exclude
pattern is dropped. -/
theorem filter_objects_include_exclude :
    (∀ (inc exc : Option (List String)) (objects : List CatalogObject) (x : CatalogObject),
      x ∈ filter_objects inc exc objects ↔
        x ∈ objects ∧
          (inc.getD [] = [] ∨ ∃ p ∈ inc.getD [], reSearchCI p x.name = true) ∧
          (∀ p ∈ exc.getD [], reSearchCI p x.name = false)) ∧
    (∀ (name : String) (inc exc : Option (List String)),
      _test_regex name inc exc = true ↔
        ((inc.getD [] = [] ∨ ∃ p ∈ inc.getD [], reSearchCI p name = true) ∧
          (∀ p ∈ exc.getD [], reSearchCI p name = false))) := by
  constructor
  · intro inc exc objects x
    have hstage : ∀ (start : List CatalogObject),
        (x ∈ (match exc with
              | some pats =>
                if pats.length > 0 then
                  pats.foldl
                    (fun (acc : List CatalogObject) p =>
                      acc.filter (fun m => !(reSearchCI p m.name))) start
                else start
              | none => start)) ↔
          x ∈ start ∧ ∀ p ∈ exc.getD [], reSearchCI p x.name = false := by
      intro start
      rcases exc with _ | epats
      · simp
      · by_cases he : epats.length > 0
        · simp only [he, if_pos, mem_foldl_filter epats (fun p m => !(reSearchCI p m.name)),
            Option.getD_some, Bool.not_eq_true']
        · have : epats = [] := List.eq_nil_of_length_eq_zero (Nat.eq_zero_of_not_pos he)
          subst this
          simp
    rcases inc with _ | ipats
    · simpa [filter_objects] using hstage objects
    · by_cases hi : ipats.length > 0
      · have hne : ¬(ipats = []) := by
          intro h; subst h; simp at hi
        have hthis := hstage (ipats.foldl
          (fun acc p => acc ∪ objects.filter (fun m => reSearchCI p m.name)) [])
        simp only [filter_objects, hi, if_pos] at hthis ⊢
        rw [hthis, mem_foldl_union ipats (fun p => objects.filter (fun m => reSearchCI p m.name))]
        simp only [List.not_mem_nil, false_or, List.mem_filter, Option.getD_some, hne]
        tauto
      · have : ipats = [] := List.eq_nil_of_length_eq_zero (Nat.eq_zero_of_not_pos hi)
        subst this
        simpa [filter_objects] using hstage objects
  · intro name inc exc
    have hstage : ∀ (passed : Bool),
        ((match exc with
          | some l =>
            if l.length > 0 then
              l.foldl (fun acc p => acc && !(reSearchCI p name)) passed
            else passed
          | none => passed) = true) ↔
          passed = true ∧ ∀ p ∈ exc.getD [], reSearchCI p name = false := by
      intro passed
      rcases exc with _ | epats
      · simp
      · by_cases he : epats.length > 0
        · simp only [he, if_pos, foldl_and_eq_true epats (fun p => !(reSearchCI p name)),
            Option.getD_some, Bool.not_eq_true']
        · have : epats = [] := List.eq_nil_of_length_eq_zero (Nat.eq_zero_of_not_pos he)
          subst this
          simp
    rcases inc with _ | ipats
    · simpa [_test_regex] using hstage true
    · by_cases hi : ipats.length > 0
      · have hne : ¬(ipats = []) := by
          intro h; subst h; simp at hi
        have := hstage (ipats.foldl (fun acc p => acc || reSearchCI p name) false)
        simp only [_test_regex, hi, if_pos] at this ⊢
        rw [this, foldl_or_eq_true ipats (fun p => reSearchCI p name)]
        simp [hne]
      · have : ipats = [] := List.eq_nil_of_length_eq_zero (Nat.eq_zero_of_not_pos hi)
        subst this
        simpa [_test_regex] using hstage true

/-! ## Lemmas about `argmaxStarted` and the latest-execution subquery -/

theorem argmax_foldl (t : List JobExecutionRow) (b : JobExecutionRow) :
    ∃ x, t.foldl
        (fun best e =>
          match best with
          | none => some e
          | some b' => if b'.started_at < e.started_at then some e else some b')
        (some b) = some x ∧
      (x = b ∨ x ∈ t) ∧ b.started_at ≤ x.started_at ∧
      ∀ y ∈ t, y.started_at ≤ x.started_at := by
  induction t generalizing b with
  | nil => exact ⟨b, rfl, Or.inl rfl, Nat.le_refl _, by simp⟩
  | cons h t ih =>
    simp only [List.foldl_cons]
    by_cases hbh : b.started_at < h.started_at
    · rw [if_pos hbh]
      obtain ⟨x, hx, hmem, hge, hall⟩ := ih h
      refine ⟨x, hx, ?_, Nat.le_trans (Nat.le_of_lt hbh) hge, ?_⟩
      · rcases hmem with rfl | hm
        · exact Or.inr (List.mem_cons_self _ _)
        · exact Or.inr (List.mem_cons_of_mem _ hm)
      · intro y hy
        rcases List.mem_cons.mp hy with rfl | hy'
        · exact hge
        · exact hall y hy'
    · rw [if_neg hbh]
      obtain ⟨x, hx, hmem, hge, hall⟩ := ih b
      refine ⟨x, hx, ?_, hge, ?_⟩
      · rcases hmem with rfl | hm
        · exact Or.inl rfl
        · exact Or.inr (List.mem_cons_of_mem _ hm)
      · intro y hy
        rcases List.mem_cons.mp hy with rfl | hy'
        · exact Nat.le_trans (Nat.le_of_not_lt hbh) hge
        · exact hall y hy'

theorem argmaxStarted_spec (l : List JobExecutionRow) (hl : l ≠ []) :
    ∃ x, argmaxStarted l = some x ∧ x ∈ l ∧ ∀ y ∈ l, y.started_at ≤ x.started_at := by
  match l with
  | [] => exact absurd rfl hl
  | h :: t =>
    obtain ⟨x, hx, hmem, hge, hall⟩ := argmax_foldl t h
    refine ⟨x, ?_, ?_, ?_⟩
    · simpa [argmaxStarted] using hx
    · rcases hmem with rfl | hm
      · exact List.mem_cons_self _ _
      · exact List.mem_cons_of_mem _ hm
    · intro y hy
      rcases List.mem_cons.mp hy with rfl | hy'
      · exact hge
      · exact hall y hy'

theorem argmaxStarted_eq (l : List JobExecutionRow) (x : JobExecutionRow)
    (h : argmaxStarted l = some x) :
    x ∈ l ∧ ∀ y ∈ l, y.started_at ≤ x.started_at := by
  cases l with
  | nil => simp [argmaxStarted] at h
  | cons a t =>
    obtain ⟨w, hw, hmem, hall⟩ := argmaxStarted_spec (a :: t) (by simp)
    rw [h] at hw
    cases hw
    exact ⟨hmem, hall⟩

theorem mem_latest_ids (execs : List JobExecutionRow) (job_ids : List Nat) (n : Nat) :
    n ∈ _get_latest_job_executions job_ids execs ↔
      ∃ j ∈ job_ids, ∃ x, argmaxStarted (execs.filter (fun e => e.job_id == j)) = some x ∧
        x.id = n := by
  induction job_ids with
  | nil => simp [_get_latest_job_executions]
  | cons j t ih =>
    simp only [_get_latest_job_executions, List.foldr_cons] at ih ⊢
    cases harg : argmaxStarted (execs.filter (fun e => e.job_id == j)) with
    | none =>
      simp only [harg, ih, List.mem_cons]
      constructor
      · rintro ⟨j', hj', hx⟩
        exact ⟨j', Or.inr hj', hx⟩
      · rintro ⟨j', (rfl | hj'), hx⟩
        · obtain ⟨x, hx1, _⟩ := hx
          rw [harg] at hx1
          cases hx1
        · exact ⟨j', hj', hx⟩
    | some w =>
      simp only [harg, ih, List.mem_cons]
      constructor
      · rintro (rfl | ⟨j', hj', hx⟩)
        · exact ⟨j, Or.inl rfl, w, harg, rfl⟩
        · exact ⟨j', Or.inr hj', hx⟩
      · rintro ⟨j', (rfl | hj'), hx⟩
        · obtain ⟨x, hx1, hx2⟩ := hx
          rw [harg] at hx1
          cases hx1
          exact Or.inl hx2.symm
        · exact Or.inr ⟨j', hj', hx⟩

theorem filter_eq_singleton {α : Type} (l : List α) (p : α → Bool) (r : α)
    (hn : l.Nodup) (hr : r ∈ l) (hp : p r = true)
    (hu : ∀ x ∈ l, p x = true → x = r) : l.filter p = [r] := by
  induction l with
  | nil => cases hr
  | cons a t ih =>
    rcases List.mem_cons.mp hr with rfl | hrt
    · rw [List.filter_cons_of_pos hp]
      have ht : t.filter p = [] := by
        rw [List.filter_eq_nil_iff]
        intro x hx hpx
        have := hu x (List.mem_cons_of_mem _ hx) hpx
        subst this
        exact (List.nodup_cons.mp hn).1 hx
      rw [ht]
    · have ha : ¬(p a = true) := by
        intro hpa
        have := hu a (List.mem_cons_self _ _) hpa
        subst this
        exact (List.nodup_cons.mp hn).1 hrt
      rw [List.filter_cons_of_neg ha]
      exact ih (List.nodup_cons.mp hn).2 hrt
        (fun x hx hpx => hu x (List.mem_cons_of_mem _ hx) hpx)

/-- C6: for every list of job ids, `get_latest_job_executions` returns,
for each job id that has at least one execution, exactly one execution —
one with the maximum `started_at` among that job's executions (the rank-1
row of the `started_at`-descending partition).  Surrogate ids are pairwise
distinct (they are the primary key). -/
theorem get_latest_job_executions_returns_max :
    ∀ (execs : List JobExecutionRow) (job_ids : List Nat) (jid : Nat)
      (e : JobExecutionRow),
      (execs.map (fun x => x.id)).Nodup → jid ∈ job_ids → e ∈ execs → e.job_id = jid →
      ∃ r, r ∈ execs ∧ r.job_id = jid ∧
        (∀ x ∈ execs, x.job_id = jid → x.started_at ≤ r.started_at) ∧
        (get_latest_job_executions job_ids execs).filter (fun x => x.job_id == jid) = [r] := by
  intro execs job_ids jid e hnd hjid he hejob
  have heF : e ∈ execs.filter (fun x => x.job_id == jid) :=
    List.mem_filter.mpr ⟨he, by simp [hejob]⟩
  have hFne : execs.filter (fun x => x.job_id == jid) ≠ [] :=
    List.ne_nil_of_mem heF
  obtain ⟨r, hargr, hrF, hrmax⟩ := argmaxStarted_spec _ hFne
  have hrE : r ∈ execs := (List.mem_filter.mp hrF).1
  have hrjob : r.job_id = jid := by
    have := (List.mem_filter.mp hrF).2
    simpa using this
  have hinj : ∀ x ∈ execs, ∀ y ∈ execs, x.id = y.id → x = y :=
    fun x hx y hy hxy => List.inj_on_of_nodup_map hnd hx hy hxy
  refine ⟨r, hrE, hrjob, ?_, ?_⟩
  · intro x hx hxj
    exact hrmax x (List.mem_filter.mpr ⟨hx, by simp [hxj]⟩)
  · unfold get_latest_job_executions
    rw [List.filter_filter]
    refine filter_eq_singleton _ _ r (List.Nodup.of_map _ hnd) hrE ?_ ?_
    · have hrid : r.id ∈ _get_latest_job_executions job_ids execs :=
        (mem_latest_ids execs job_ids r.id).mpr ⟨jid, hjid, r, hargr, rfl⟩
      simp [hrjob, hrid]
    · intro x hx hpx
      have hconj := Bool.and_eq_true_iff.mp hpx
      have hxj : x.job_id = jid := by simpa using hconj.1
      have hxid : x.id ∈ _get_latest_job_executions job_ids execs := by
        have := hconj.2
        simpa using this
      obtain ⟨j, hj, w, hwarg, hwid⟩ := (mem_latest_ids execs job_ids x.id).mp hxid
      have hwF := argmaxStarted_eq _ _ hwarg
      have hwE : w ∈ execs := (List.mem_filter.mp hwF.1).1
      have hxw : x = w := hinj x hx w hwE hwid.symm
      have hwjob : w.job_id = j := by
        have := (List.mem_filter.mp hwF.1).2
        simpa using this
      have hjjid : j = jid := by rw [← hwjob, ← hxw, hxj]
      subst hjjid
      rw [hwarg] at hargr
      cases hargr
      exact hxw

/-- Witness for C6: a job with three executions started at 10 < 20 < 30;
`get_latest_job_executions` keeps exactly one of them, the maximal one. -/
theorem get_latest_job_executions_returns_max_witness :
    ∃ r, r ∈ ([⟨1, 1, 10, 11, JobExecutionStatus.success⟩,
        ⟨2, 1, 20, 21, JobExecutionStatus.failure⟩,
        ⟨3, 1, 30, 31, JobExecutionStatus.success⟩] : List JobExecutionRow) ∧
      r.job_id = 1 ∧
      (∀ x ∈ ([⟨1, 1, 10, 11, JobExecutionStatus.success⟩,
          ⟨2, 1, 20, 21, JobExecutionStatus.failure⟩,
          ⟨3, 1, 30, 31, JobExecutionStatus.success⟩] : List JobExecutionRow),
        x.job_id = 1 → x.started_at ≤ r.started_at) ∧
      (get_latest_job_executions [1]
          [⟨1, 1, 10, 11, JobExecutionStatus.success⟩,
           ⟨2, 1, 20, 21, JobExecutionStatus.failure⟩,
           ⟨3, 1, 30, 31, JobExecutionStatus.success⟩]).filter
        (fun x => x.job_id == 1) = [r] :=
  get_latest_job_executions_returns_max
    [⟨1, 1, 10, 11, JobExecutionStatus.success⟩,
     ⟨2, 1, 20, 21, JobExecutionStatus.failure⟩,
     ⟨3, 1, 30, 31, JobExecutionStatus.success⟩]
    [1] 1 ⟨1, 1, 10, 11, JobExecutionStatus.success⟩
    (by decide) (by decide) (by decide) (by decide)

/-- C7: `get_column_lineages` with no job ids returns every lineage edge;
with a non-empty job-id list it returns exactly the edges whose
`job_execution_id` belongs to a latest (maximum `started_at`) execution of
one of those jobs.  Surrogate execution ids are pairwise distinct and, per
job, `started_at` values are pairwise distinct (so "the latest" is
well-defined). -/
theorem get_column_lineages_latest_per_job :
    (∀ st : CatalogState, get_column_lineages none st = st.lineages) ∧
    (∀ (st : CatalogState) (l : List Nat) (e : LineageRow),
      l ≠ [] →
      (st.job_executions.map (fun x => x.id)).Nodup →
      (∀ x ∈ st.job_executions, ∀ y ∈ st.job_executions,
        x.job_id = y.job_id → x.started_at = y.started_at → x = y) →
      (e ∈ get_column_lineages (some l) st ↔
        e ∈ st.lineages ∧
          ∃ x ∈ st.job_executions, x.id = e.job_execution_id ∧ x.job_id ∈ l ∧
            ∀ y ∈ st.job_executions, y.job_id = x.job_id →
              y.started_at ≤ x.started_at)) := by
  constructor
  · intro st
    rfl
  · intro st l e hl hnd htie
    have hlen : l.length > 0 := List.length_pos.mpr hl
    simp only [get_column_lineages]
    rw [if_pos hlen, List.mem_filter]
    refine and_congr_right (fun _ => ?_)
    constructor
    · intro hc
      have hmem : e.job_execution_id ∈ _get_latest_job_executions l st.job_executions := by
        simpa using hc
      obtain ⟨j, hj, w, hwarg, hwid⟩ := (mem_latest_ids _ _ _).mp hmem
      have hw := argmaxStarted_eq _ _ hwarg
      have hwE : w ∈ st.job_executions := (List.mem_filter.mp hw.1).1
      have hwj : w.job_id = j := by
        have := (List.mem_filter.mp hw.1).2
        simpa using this
      refine ⟨w, hwE, hwid, by rw [hwj]; exact hj, ?_⟩
      intro y hy hyj
      exact hw.2 y (List.mem_filter.mpr ⟨hy, by simp [hyj, hwj]⟩)
    · rintro ⟨x, hx, hxid, hxl, hxmax⟩
      have hxF : x ∈ st.job_executions.filter (fun y => y.job_id == x.job_id) :=
        List.mem_filter.mpr ⟨hx, by simp⟩
      obtain ⟨w, hwarg, hwF, hwmax⟩ := argmaxStarted_spec _ (List.ne_nil_of_mem hxF)
      have hwE : w ∈ st.job_executions := (List.mem_filter.mp hwF).1
      have hwj : w.job_id = x.job_id := by
        have := (List.mem_filter.mp hwF).2
        simpa using this
      have h1 : x.started_at ≤ w.started_at := hwmax x hxF
      have h2 : w.started_at ≤ x.started_at := hxmax w hwE hwj
      have hxw : x = w := htie x hx w hwE hwj.symm (Nat.le_antisymm h1 h2)
      have hmem : e.job_execution_id ∈ _get_latest_job_executions l st.job_executions :=
        (mem_latest_ids _ _ _).mpr ⟨x.job_id, hxl, w, hwarg, by rw [← hxw]; exact hxid⟩
      simpa using hmem

/-- Witness for C7: one job with two executions (started 10 and 20), each
asserting a distinct edge; scoping by the job returns the edge of the
later execution. -/
theorem get_column_lineages_latest_per_job_witness :
    (⟨2, 5, 7, 2, "c2"⟩ : LineageRow) ∈ get_column_lineages (some [1])
      { CatalogState.empty with
        job_executions := [⟨1, 1, 10, 11, JobExecutionStatus.success⟩,
          ⟨2, 1, 20, 21, JobExecutionStatus.success⟩],
        lineages := [⟨1, 5, 6, 1, "c1"⟩, ⟨2, 5, 7, 2, "c2"⟩] } :=
  (get_column_lineages_latest_per_job.2
      { CatalogState.empty with
        job_executions := [⟨1, 1, 10, 11, JobExecutionStatus.success⟩,
          ⟨2, 1, 20, 21, JobExecutionStatus.success⟩],
        lineages := [⟨1, 5, 6, 1, "c1"⟩, ⟨2, 5, 7, 2, "c2"⟩] }
      [1] ⟨2, 5, 7, 2, "c2"⟩ (by decide) (by decide) (by decide)).mpr (by decide)

/-- C10: `get_column_lineages` called with an empty job-id list behaves
exactly like the no-argument call — the job filter is applied only when
the list is non-empty, so both return every lineage edge. -/
theorem get_column_lineages_empty_job_ids :
    ∀ st : CatalogState,
      get_column_lineages (some []) st = st.lineages ∧
      get_column_lineages none st = st.lineages := by
  intro st
  exact ⟨rfl, rfl⟩

/-! ## Lemmas about the reconciling store -/

theorem _create_ne_integrityError {α : Type} (rows : List α) (cp fp : α → Bool)
    (row : α) : _create rows cp fp row ≠ .error .integrityError := by
  unfold _create
  split
  · split <;> simp
  · simp

theorem _create_fetch {α : Type} (rows : List α) (cp fp : α → Bool) (row r : α)
    (hC : ∀ x, fp x = true → cp x = true)
    (hf : rows.filter fp = [r]) :
    _create rows cp fp row = .ok (r, rows) := by
  have hrmem : r ∈ rows.filter fp := by
    rw [hf]
    exact List.mem_cons_self _ _
  have hr := List.mem_filter.mp hrmem
  have hany : rows.any cp = true := List.any_eq_true.mpr ⟨r, hr.1, hC r hr.2⟩
  unfold _create
  rw [if_pos hany, hf]

theorem _create_idem {α : Type} (rows rows' : List α) (cp fp : α → Bool)
    (row row₂ r : α)
    (hA : fp row = true) (hC : ∀ x, fp x = true → cp x = true)
    (h : _create rows cp fp row = .ok (r, rows')) :
    _create rows' cp fp row₂ = .ok (r, rows') := by
  unfold _create at h
  by_cases hany : rows.any cp = true
  · rw [if_pos hany] at h
    cases hfil : rows.filter fp with
    | nil =>
      rw [hfil] at h
      simp at h
    | cons a t =>
      cases t with
      | nil =>
        rw [hfil] at h
        simp only [Except.ok.injEq, Prod.mk.injEq] at h
        obtain ⟨hra, hrows⟩ := h
        subst hra
        subst hrows
        exact _create_fetch rows cp fp row₂ a hC hfil
      | cons b t2 =>
        rw [hfil] at h
        simp at h
  · rw [if_neg hany] at h
    simp only [Except.ok.injEq, Prod.mk.injEq] at h
    obtain ⟨hra, hrows⟩ := h
    subst hra
    subst hrows
    have hanyF : rows.any cp = false := by
      revert hany
      cases rows.any cp <;> simp
    have hfilnil : rows.filter fp = [] := by
      rw [List.filter_eq_nil_iff]
      intro x hx hpx
      have hx2 : rows.any cp = true := List.any_eq_true.mpr ⟨x, hx, hC x hpx⟩
      rw [hanyF] at hx2
      cases hx2
    have hfil : (rows ++ [row]).filter fp = [row] := by
      rw [List.filter_append, hfilnil]
      simp [hA]
    exact _create_fetch _ cp fp row₂ row hC hfil

theorem lookupField_nodup (extra : List (String × String)) (kv : String × String)
    (hnd : (extra.map Prod.fst).Nodup) (hkv : kv ∈ extra) :
    lookupField extra kv.1 = some kv.2 := by
  induction extra with
  | nil => cases hkv
  | cons h t ih =>
    rcases List.mem_cons.mp hkv with rfl | hkt
    · unfold lookupField
      rw [List.find?_cons_of_pos]
      · rfl
      · simp
    · have hne : ((fun kv' => kv'.1 == kv.1) h) = false := by
        simp only [beq_eq_false_iff_ne, ne_eq]
        intro hb
        apply (List.nodup_cons.mp hnd).1
        rw [hb]
        exact List.mem_map.mpr ⟨kv, hkt, rfl⟩
      unfold lookupField
      rw [List.find?_cons_of_neg]
      · exact ih (List.nodup_cons.mp hnd).2 hkt
      · simp only [hne]
        simp

theorem add_schema_idem (st : CatalogState) (schema_name : String) (source_id : Nat)
    (r : SchemaRow) (st1 : CatalogState)
    (h : add_schema schema_name source_id st = .ok (r, st1)) :
    add_schema schema_name source_id st1 = .ok (r, st1) := by
  unfold add_schema at h ⊢
  cases hcr : _create st.schemata
      (fun x => x.name == schema_name && x.source_id == source_id)
      (fun x => x.name == schema_name && x.source_id == source_id)
      { id := nextId (st.schemata.map (·.id)), name := schema_name,
        source_id := source_id } with
  | error e =>
    rw [hcr] at h
    simp at h
  | ok pr =>
    obtain ⟨r', rows'⟩ := pr
    rw [hcr] at h
    simp only [Except.ok.injEq, Prod.mk.injEq] at h
    obtain ⟨hra, hst⟩ := h
    subst hra
    subst hst
    rw [_create_idem st.schemata rows' _ _ _ _ r' (by simp) (fun x hx => hx) hcr]

theorem add_table_idem (st : CatalogState) (table_name : String) (schema_id : Nat)
    (r : TableRow) (st1 : CatalogState)
    (h : add_table table_name schema_id st = .ok (r, st1)) :
    add_table table_name schema_id st1 = .ok (r, st1) := by
  unfold add_table at h ⊢
  cases hcr : _create st.tables
      (fun x => x.name == table_name && x.schema_id == schema_id)
      (fun x => x.name == table_name && x.schema_id == schema_id)
      { id := nextId (st.tables.map (·.id)), name := table_name,
        schema_id := schema_id } with
  | error e =>
    rw [hcr] at h
    simp at h
  | ok pr =>
    obtain ⟨r', rows'⟩ := pr
    rw [hcr] at h
    simp only [Except.ok.injEq, Prod.mk.injEq] at h
    obtain ⟨hra, hst⟩ := h
    subst hra
    subst hst
    rw [_create_idem st.tables rows' _ _ _ _ r' (by simp) (fun x hx => hx) hcr]

theorem add_column_idem (st : CatalogState) (column_name dt1 dt2 : String)
    (so1 so2 table_id : Nat) (r : ColumnRow) (st1 : CatalogState)
    (h : add_column column_name dt1 so1 table_id st = .ok (r, st1)) :
    add_column column_name dt2 so2 table_id st1 = .ok (r, st1) := by
  unfold add_column at h ⊢
  cases hcr : _create st.columns
      (fun x => x.name == column_name && x.table_id == table_id)
      (fun x => x.name == column_name && x.table_id == table_id)
      { id := nextId (st.columns.map (·.id)), name := column_name,
        data_type := dt1, sort_order := so1, table_id := table_id } with
  | error e =>
    rw [hcr] at h
    simp at h
  | ok pr =>
    obtain ⟨r', rows'⟩ := pr
    rw [hcr] at h
    simp only [Except.ok.injEq, Prod.mk.injEq] at h
    obtain ⟨hra, hst⟩ := h
    subst hra
    subst hst
    rw [_create_idem st.columns rows' _ _ _ _ r' (by simp) (fun x hx => hx) hcr]

theorem add_job_idem (st : CatalogState) (name ctx1 ctx2 : String) (source_id : Nat)
    (r : JobRow) (st1 : CatalogState)
    (h : add_job name source_id ctx1 st = .ok (r, st1)) :
    add_job name source_id ctx2 st1 = .ok (r, st1) := by
  unfold add_job at h ⊢
  cases hcr : _create st.jobs (fun x => x.name == name)
      (fun x => x.name == name && x.source_id == source_id)
      { id := nextId (st.jobs.map (·.id)), name := name, source_id := source_id,
        context := ctx1 } with
  | error e =>
    rw [hcr] at h
    simp at h
  | ok pr =>
    obtain ⟨r', rows'⟩ := pr
    rw [hcr] at h
    simp only [Except.ok.injEq, Prod.mk.injEq] at h
    obtain ⟨hra, hst⟩ := h
    subst hra
    subst hst
    rw [_create_idem st.jobs rows' _ _ _ _ r' (by simp)
      (fun x hx => by
        simp only [Bool.and_eq_true] at hx
        exact hx.1) hcr]

theorem add_column_lineage_idem (st : CatalogState)
    (source_id target_id job_execution_id : Nat) (ctx1 ctx2 : String)
    (r : LineageRow) (st1 : CatalogState)
    (h : add_column_lineage source_id target_id job_execution_id ctx1 st = .ok (r, st1)) :
    add_column_lineage source_id target_id job_execution_id ctx2 st1 = .ok (r, st1) := by
  unfold add_column_lineage at h ⊢
  cases hcr : _create st.lineages
      (fun x => x.source_id == source_id && x.target_id == target_id &&
        x.job_execution_id == job_execution_id)
      (fun x => x.source_id == source_id && x.target_id == target_id &&
        x.job_execution_id == job_execution_id)
      { id := nextId (st.lineages.map (·.id)), source_id := source_id,
        target_id := target_id, job_execution_id := job_execution_id,
        context := ctx1 } with
  | error e =>
    rw [hcr] at h
    simp at h
  | ok pr =>
    obtain ⟨r', rows'⟩ := pr
    rw [hcr] at h
    simp only [Except.ok.injEq, Prod.mk.injEq] at h
    obtain ⟨hra, hst⟩ := h
    subst hra
    subst hst
    rw [_create_idem st.lineages rows' _ _ _ _ r' (by simp) (fun x hx => hx) hcr]

theorem add_source_idem (st : CatalogState) (name source_type : String)
    (extra : List (String × String)) (r : SourceRow) (st1 : CatalogState)
    (hlow : pyLower source_type = source_type)
    (hnd : (extra.map Prod.fst).Nodup)
    (h : add_source name source_type extra st = .ok (r, st1)) :
    add_source name source_type extra st1 = .ok (r, st1) := by
  unfold add_source at h ⊢
  cases hcr : _create st.sources (fun x => x.name == name)
      (sourceKwargsMatch name source_type extra)
      { id := nextId (st.sources.map (·.id)), name := name,
        source_type := pyLower source_type, extra := extra } with
  | error e =>
    rw [hcr] at h
    simp at h
  | ok pr =>
    obtain ⟨r', rows'⟩ := pr
    rw [hcr] at h
    simp only [Except.ok.injEq, Prod.mk.injEq] at h
    obtain ⟨hra, hst⟩ := h
    subst hra
    subst hst
    have hA : sourceKwargsMatch name source_type extra
        { id := nextId (st.sources.map (·.id)), name := name,
          source_type := pyLower source_type, extra := extra } = true := by
      unfold sourceKwargsMatch
      simp only [hlow, beq_self_eq_true, Bool.and_eq_true, true_and]
      rw [List.all_eq_true]
      intro kv hkv
      simp [lookupField_nodup extra kv hnd hkv]
    have hC : ∀ x, sourceKwargsMatch name source_type extra x = true →
        (x.name == name) = true := by
      intro x hx
      unfold sourceKwargsMatch at hx
      simp only [Bool.and_eq_true] at hx
      exact hx.1.1
    rw [_create_idem st.sources rows' _ _ _ _ r' hA hC hcr]

/-- C1 counterexample: upsert is not idempotent for every entity kind.
(a) `job_executions` has no unique constraint, so a second
`add_job_execution` with identical fields inserts a second row instead of
yielding exactly one; (b) for sources the re-fetch filters by all supplied
fields, so a second `add_source` with the same natural key (`name`) but a
different non-key field (`uri`) raises `NoResultFound` instead of
returning a handle to the stored row. -/
theorem upsert_idempotent_counterexample :
    (add_job_execution 1 10 20 JobExecutionStatus.success CatalogState.empty =
        .ok (⟨1, 1, 10, 20, JobExecutionStatus.success⟩,
          { CatalogState.empty with
            job_executions := [⟨1, 1, 10, 20, JobExecutionStatus.success⟩] }) ∧
      add_job_execution 1 10 20 JobExecutionStatus.success
          { CatalogState.empty with
            job_executions := [⟨1, 1, 10, 20, JobExecutionStatus.success⟩] } =
        .ok (⟨2, 1, 10, 20, JobExecutionStatus.success⟩,
          { CatalogState.empty with
            job_executions := [⟨1, 1, 10, 20, JobExecutionStatus.success⟩,
              ⟨2, 1, 10, 20, JobExecutionStatus.success⟩] })) ∧
    add_source "s" "sqlite" [("uri", "/b")]
        { CatalogState.empty with
          sources := [⟨1, "s", "sqlite", [("uri", "/a")]⟩] } =
      .error .noResultFound :=
  ⟨⟨rfl, rfl⟩, rfl⟩

/-- C1 (amended): for the schema, table, column, job and column-lineage
kinds, a second `add_*` call with the same natural-key fields returns the
same row and leaves the store unchanged, and non-key fields of the second
call (`data_type`/`sort_order`/`context`) are dropped.  For sources this
holds only when the second call repeats the first call's fields exactly
(with the source type already lowercase, as stored).  Job executions have
no natural key: each `add_job_execution` call inserts a fresh row. -/
theorem upsert_idempotent_amended :
    (∀ (st : CatalogState) (schema_name : String) (source_id : Nat)
        (r : SchemaRow) (st1 : CatalogState),
      add_schema schema_name source_id st = .ok (r, st1) →
      add_schema schema_name source_id st1 = .ok (r, st1)) ∧
    (∀ (st : CatalogState) (table_name : String) (schema_id : Nat)
        (r : TableRow) (st1 : CatalogState),
      add_table table_name schema_id st = .ok (r, st1) →
      add_table table_name schema_id st1 = .ok (r, st1)) ∧
    (∀ (st : CatalogState) (column_name dt1 dt2 : String) (so1 so2 table_id : Nat)
        (r : ColumnRow) (st1 : CatalogState),
      add_column column_name dt1 so1 table_id st = .ok (r, st1) →
      add_column column_name dt2 so2 table_id st1 = .ok (r, st1)) ∧
    (∀ (st : CatalogState) (name ctx1 ctx2 : String) (source_id : Nat)
        (r : JobRow) (st1 : CatalogState),
      add_job name source_id ctx1 st = .ok (r, st1) →
      add_job name source_id ctx2 st1 = .ok (r, st1)) ∧
    (∀ (st : CatalogState) (source_id target_id job_execution_id : Nat)
        (ctx1 ctx2 : String) (r : LineageRow) (st1 : CatalogState),
      add_column_lineage source_id target_id job_execution_id ctx1 st = .ok (r, st1) →
      add_column_lineage source_id target_id job_execution_id ctx2 st1 = .ok (r, st1)) ∧
    (∀ (st : CatalogState) (name source_type : String)
        (extra : List (String × String)) (r : SourceRow) (st1 : CatalogState),
      pyLower source_type = source_type →
      (extra.map Prod.fst).Nodup →
      add_source name source_type extra st = .ok (r, st1) →
      add_source name source_type extra st1 = .ok (r, st1)) :=
  ⟨fun st n sid r st1 h => add_schema_idem st n sid r st1 h,
   fun st n sid r st1 h => add_table_idem st n sid r st1 h,
   fun st n d1 d2 s1 s2 tid r st1 h => add_column_idem st n d1 d2 s1 s2 tid r st1 h,
   fun st n c1 c2 sid r st1 h => add_job_idem st n c1 c2 sid r st1 h,
   fun st a b e c1 c2 r st1 h => add_column_lineage_idem st a b e c1 c2 r st1 h,
   fun st n t ex r st1 hl hn h => add_source_idem st n t ex r st1 hl hn h⟩

/-- Witness for C1 (amended): re-adding column `c` of table 1 with a
different `data_type` and `sort_order` returns the stored row unchanged. -/
theorem upsert_idempotent_amended_witness :
    add_column "c" "text" 7 1
        { CatalogState.empty with columns := [⟨1, "c", "int", 0, 1⟩] } =
      .ok (⟨1, "c", "int", 0, 1⟩,
        { CatalogState.empty with columns := [⟨1, "c", "int", 0, 1⟩] }) :=
  upsert_idempotent_amended.2.2.1 CatalogState.empty "c" "int" "text" 0 7 1
    ⟨1, "c", "int", 0, 1⟩
    { CatalogState.empty with columns := [⟨1, "c", "int", 0, 1⟩] } rfl

/-- C2 counterexample: `Job.name` is globally unique (models.py:331), so
`add_job` with a name already used by a job of a *different* source hits
`IntegrityError`, rolls back, and the re-fetch by `(name, source)` finds
no row: `.one()` raises `NoResultFound` instead of returning the existing
row. -/
theorem conflict_recovery_counterexample :
    add_job "j" 2 "ctx2"
        { CatalogState.empty with jobs := [⟨1, "j", 1, "ctx"⟩] } =
      .error .noResultFound := rfl

/-- C2 (amended): whenever a row with the call's natural key exists (the
only way insertion can conflict for `add_schema`/`add_table`/`add_column`/
`add_column_lineage`, whose sole unique constraint is the natural key),
the `_create` conflict path rolls back, re-fetches that row and returns it
with the store unchanged; the same holds for `add_job` when the existing
job with that name belongs to the same source.  In no case does an
`IntegrityError` propagate to the caller. -/
theorem conflict_recovery_amended :
    (∀ (st : CatalogState) (schema_name : String) (source_id : Nat) (r : SchemaRow),
      st.schemata.filter (fun x => x.name == schema_name && x.source_id == source_id) = [r] →
      add_schema schema_name source_id st = .ok (r, st)) ∧
    (∀ (st : CatalogState) (table_name : String) (schema_id : Nat) (r : TableRow),
      st.tables.filter (fun x => x.name == table_name && x.schema_id == schema_id) = [r] →
      add_table table_name schema_id st = .ok (r, st)) ∧
    (∀ (st : CatalogState) (column_name data_type : String) (sort_order table_id : Nat)
        (r : ColumnRow),
      st.columns.filter (fun x => x.name == column_name && x.table_id == table_id) = [r] →
      add_column column_name data_type sort_order table_id st = .ok (r, st)) ∧
    (∀ (st : CatalogState) (name ctx : String) (source_id : Nat) (r : JobRow),
      st.jobs.filter (fun x => x.name == name && x.source_id == source_id) = [r] →
      add_job name source_id ctx st = .ok (r, st)) ∧
    (∀ (st : CatalogState) (source_id target_id job_execution_id : Nat) (ctx : String)
        (r : LineageRow),
      st.lineages.filter (fun x => x.source_id == source_id && x.target_id == target_id &&
        x.job_execution_id == job_execution_id) = [r] →
      add_column_lineage source_id target_id job_execution_id ctx st = .ok (r, st)) ∧
    (∀ (st : CatalogState) (schema_name : String) (source_id : Nat),
      add_schema schema_name source_id st ≠ .error .integrityError) ∧
    (∀ (st : CatalogState) (table_name : String) (schema_id : Nat),
      add_table table_name schema_id st ≠ .error .integrityError) ∧
    (∀ (st : CatalogState) (column_name data_type : String) (sort_order table_id : Nat),
      add_column column_name data_type sort_order table_id st ≠ .error .integrityError) ∧
    (∀ (st : CatalogState) (name ctx : String) (source_id : Nat),
      add_job name source_id ctx st ≠ .error .integrityError) ∧
    (∀ (st : CatalogState) (source_id target_id job_execution_id : Nat) (ctx : String),
      add_column_lineage source_id target_id job_execution_id ctx st ≠
        .error .integrityError) := by
  refine ⟨?_, ?_, ?_, ?_, ?_, ?_, ?_, ?_, ?_, ?_⟩
  · intro st n sid r hf
    unfold add_schema
    rw [_create_fetch st.schemata _ _ _ r (fun x hx => hx) hf]
  · intro st n sid r hf
    unfold add_table
    rw [_create_fetch st.tables _ _ _ r (fun x hx => hx) hf]
  · intro st n dt so tid r hf
    unfold add_column
    rw [_create_fetch st.columns _ _ _ r (fun x hx => hx) hf]
  · intro st n ctx sid r hf
    unfold add_job
    rw [_create_fetch st.jobs _ _ _ r
      (fun x hx => by
        simp only [Bool.and_eq_true] at hx
        exact hx.1) hf]
  · intro st a b e ctx r hf
    unfold add_column_lineage
    rw [_create_fetch st.lineages _ _ _ r (fun x hx => hx) hf]
  · intro st n sid
    unfold add_schema
    cases h2 : _create st.schemata
        (fun x => x.name == n && x.source_id == sid)
        (fun x => x.name == n && x.source_id == sid)
        { id := nextId (st.schemata.map (·.id)), name := n, source_id := sid } with
    | ok pr =>
      obtain ⟨a, b⟩ := pr
      simp
    | error e =>
      intro hEq
      cases hEq
      exact _create_ne_integrityError _ _ _ _ h2
  · intro st n sid
    unfold add_table
    cases h2 : _create st.tables
        (fun x => x.name == n && x.schema_id == sid)
        (fun x => x.name == n && x.schema_id == sid)
        { id := nextId (st.tables.map (·.id)), name := n, schema_id := sid } with
    | ok pr =>
      obtain ⟨a, b⟩ := pr
      simp
    | error e =>
      intro hEq
      cases hEq
      exact _create_ne_integrityError _ _ _ _ h2
  · intro st n dt so tid
    unfold add_column
    cases h2 : _create st.columns
        (fun x => x.name == n && x.table_id == tid)
        (fun x => x.name == n && x.table_id == tid)
        { id := nextId (st.columns.map (·.id)), name := n, data_type := dt,
          sort_order := so, table_id := tid } with
    | ok pr =>
      obtain ⟨a, b⟩ := pr
      simp
    | error e =>
      intro hEq
      cases hEq
      exact _create_ne_integrityError _ _ _ _ h2
  · intro st n ctx sid
    unfold add_job
    cases h2 : _create st.jobs (fun x => x.name == n)
        (fun x => x.name == n && x.source_id == sid)
        { id := nextId (st.jobs.map (·.id)), name := n, source_id := sid,
          context := ctx } with
    | ok pr =>
      obtain ⟨a, b⟩ := pr
      simp
    | error e =>
      intro hEq
      cases hEq
      exact _create_ne_integrityError _ _ _ _ h2
  · intro st a b e ctx
    unfold add_column_lineage
    cases h2 : _create st.lineages
        (fun x => x.source_id == a && x.target_id == b && x.job_execution_id == e)
        (fun x => x.source_id == a && x.target_id == b && x.job_execution_id == e)
        { id := nextId (st.lineages.map (·.id)), source_id := a, target_id := b,
          job_execution_id := e, context := ctx } with
    | ok pr =>
      obtain ⟨a2, b2⟩ := pr
      simp
    | error e2 =>
      intro hEq
      cases hEq
      exact _create_ne_integrityError _ _ _ _ h2

/-- Witness for C2 (amended): adding schema `sch` of source 1 when the
row already exists returns the stored row and leaves the store as it was. -/
theorem conflict_recovery_amended_witness :
    add_schema "sch" 1 { CatalogState.empty with schemata := [⟨1, "sch", 1⟩] } =
      .ok (⟨1, "sch", 1⟩, { CatalogState.empty with schemata := [⟨1, "sch", 1⟩] }) :=
  conflict_recovery_amended.1
    { CatalogState.empty with schemata := [⟨1, "sch", 1⟩] } "sch" 1 ⟨1, "sch", 1⟩
    (by decide)

/-- C8 counterexample: registering source `s` again with exactly the
stored fields is resolved transparently — the existing row is returned,
no uniqueness conflict surfaces to the caller. -/
theorem duplicate_source_counterexample :
    add_source "s" "sqlite" [("uri", "/a")]
        { CatalogState.empty with sources := [⟨1, "s", "sqlite", [("uri", "/a")]⟩] } =
      .ok (⟨1, "s", "sqlite", [("uri", "/a")]⟩,
        { CatalogState.empty with
          sources := [⟨1, "s", "sqlite", [("uri", "/a")]⟩] }) := rfl

/-- C8 (amended): registering a Source whose `name` is already in use
surfaces an error (`NoResultFound` from the conflict re-fetch, which
filters by every supplied field) exactly when the supplied fields do not
match the stored row; when they match the stored row exactly, the
existing row is returned transparently, like the other upserts. -/
theorem duplicate_source_amended :
    (∀ (st : CatalogState) (name source_type : String)
        (extra : List (String × String)),
      st.sources.any (fun x => x.name == name) = true →
      st.sources.filter (sourceKwargsMatch name source_type extra) = [] →
      add_source name source_type extra st = .error .noResultFound) ∧
    (∀ (st : CatalogState) (name source_type : String)
        (extra : List (String × String)) (r : SourceRow),
      st.sources.filter (sourceKwargsMatch name source_type extra) = [r] →
      add_source name source_type extra st = .ok (r, st)) := by
  constructor
  · intro st n t ex hany hfil
    unfold add_source _create
    rw [if_pos hany, hfil]
  · intro st n t ex r hf
    unfold add_source
    rw [_create_fetch st.sources _ _ _ r
      (fun x hx => by
        unfold sourceKwargsMatch at hx
        simp only [Bool.and_eq_true] at hx
        exact hx.1.1) hf]

/-- Witness for C8 (amended): re-registering `s` with a different `uri`
raises; the stored row is not touched and not returned. -/
theorem duplicate_source_amended_witness :
    add_source "s" "postgresql" [("uri", "/b")]
        { CatalogState.empty with sources := [⟨1, "s", "sqlite", [("uri", "/a")]⟩] } =
      .error .noResultFound :=
  duplicate_source_amended.1
    { CatalogState.empty with sources := [⟨1, "s", "sqlite", [("uri", "/a")]⟩] }
    "s" "postgresql" [("uri", "/b")] (by decide) (by decide)

/-! ## Lemmas about the scan orchestrator -/

theorem _create_rows {α : Type} (rows : List α) (cp fp : α → Bool) (row r : α)
    (rows' : List α) (h : _create rows cp fp row = .ok (r, rows')) :
    rows' = rows ∨ rows' = rows ++ [row] := by
  unfold _create at h
  by_cases hany : rows.any cp = true
  · rw [if_pos hany] at h
    cases hfil : rows.filter fp with
    | nil =>
      rw [hfil] at h
      simp at h
    | cons a t =>
      cases t with
      | nil =>
        rw [hfil] at h
        simp only [Except.ok.injEq, Prod.mk.injEq] at h
        exact Or.inl h.2.symm
      | cons b t2 =>
        rw [hfil] at h
        simp at h
  · rw [if_neg hany] at h
    simp only [Except.ok.injEq, Prod.mk.injEq] at h
    exact Or.inr h.2.symm

theorem add_schema_tables (schema_name : String) (source_id : Nat)
    (st : CatalogState) (r : SchemaRow) (st' : CatalogState)
    (h : add_schema schema_name source_id st = .ok (r, st')) :
    st'.tables = st.tables := by
  unfold add_schema at h
  cases hcr : _create st.schemata
      (fun x => x.name == schema_name && x.source_id == source_id)
      (fun x => x.name == schema_name && x.source_id == source_id)
      { id := nextId (st.schemata.map (·.id)), name := schema_name,
        source_id := source_id } with
  | error e =>
    rw [hcr] at h
    simp at h
  | ok pr =>
    obtain ⟨a, rows'⟩ := pr
    rw [hcr] at h
    simp only [Except.ok.injEq, Prod.mk.injEq] at h
    rw [← h.2]

theorem add_column_tables (column_name data_type : String) (sort_order table_id : Nat)
    (st : CatalogState) (r : ColumnRow) (st' : CatalogState)
    (h : add_column column_name data_type sort_order table_id st = .ok (r, st')) :
    st'.tables = st.tables := by
  unfold add_column at h
  cases hcr : _create st.columns
      (fun x => x.name == column_name && x.table_id == table_id)
      (fun x => x.name == column_name && x.table_id == table_id)
      { id := nextId (st.columns.map (·.id)), name := column_name,
        data_type := data_type, sort_order := sort_order, table_id := table_id } with
  | error e =>
    rw [hcr] at h
    simp at h
  | ok pr =>
    obtain ⟨a, rows'⟩ := pr
    rw [hcr] at h
    simp only [Except.ok.injEq, Prod.mk.injEq] at h
    rw [← h.2]

theorem add_table_mem (table_name : String) (schema_id : Nat)
    (st : CatalogState) (r : TableRow) (st' : CatalogState)
    (h : add_table table_name schema_id st = .ok (r, st')) :
    ∀ t ∈ st'.tables, t ∈ st.tables ∨ t.name = table_name := by
  unfold add_table at h
  cases hcr : _create st.tables
      (fun x => x.name == table_name && x.schema_id == schema_id)
      (fun x => x.name == table_name && x.schema_id == schema_id)
      { id := nextId (st.tables.map (·.id)), name := table_name,
        schema_id := schema_id } with
  | error e =>
    rw [hcr] at h
    simp at h
  | ok pr =>
    obtain ⟨a, rows'⟩ := pr
    rw [hcr] at h
    simp only [Except.ok.injEq, Prod.mk.injEq] at h
    rw [← h.2]
    intro t ht
    rcases _create_rows st.tables _ _ _ a rows' hcr with hsame | happ
    · rw [hsame] at ht
      exact Or.inl ht
    · rw [happ] at ht
      rcases List.mem_append.mp ht with hold | hnew
      · exact Or.inl hold
      · rcases List.mem_singleton.mp hnew with rfl
        exact Or.inr rfl

theorem scanColumns_tables (table_id : Nat) (cols : List ColumnMetadata)
    (index column_count : Nat) (st : CatalogState) (c : Nat) (st' : CatalogState)
    (h : scanColumns table_id cols index column_count st = .ok (c, st')) :
    st'.tables = st.tables := by
  induction cols generalizing index column_count st with
  | nil =>
    unfold scanColumns at h
    simp only [Except.ok.injEq, Prod.mk.injEq] at h
    rw [← h.2]
  | cons cm rest ih =>
    unfold scanColumns at h
    cases hac : add_column cm.name cm.type index table_id st with
    | error e =>
      rw [hac] at h
      simp at h
    | ok pr =>
      obtain ⟨a, st2⟩ := pr
      rw [hac] at h
      rw [ih (index + 1) (column_count + 1) st2 h]
      exact add_column_tables cm.name cm.type index table_id st a st2 hac

theorem schemaStep_tables (source_id : Nat) (cur : SchemaRow) (schema : String)
    (schema_count : Nat) (st : CatalogState) (cur' : SchemaRow)
    (schema_count' : Nat) (st1 : CatalogState)
    (h : schemaStep source_id cur schema schema_count st = .ok (cur', schema_count', st1)) :
    st1.tables = st.tables := by
  unfold schemaStep at h
  by_cases hc : (schema != cur.name) = true
  · rw [if_pos hc] at h
    cases hadd : add_schema schema source_id st with
    | error e =>
      rw [hadd] at h
      simp at h
    | ok pr =>
      obtain ⟨s, stx⟩ := pr
      rw [hadd] at h
      simp only [Except.ok.injEq, Prod.mk.injEq] at h
      rw [← h.2.2]
      exact add_schema_tables schema source_id st s stx hadd
  · rw [if_neg hc] at h
    simp only [Except.ok.injEq, Prod.mk.injEq] at h
    rw [← h.2.2]

theorem scanLoop_tables (source_id : Nat) (cur : SchemaRow)
    (records : List TableMetadata) (a b c : Nat) (st : CatalogState)
    (cnt : Nat × Nat × Nat) (st' : CatalogState)
    (h : scanLoop source_id cur records a b c st = .ok (cnt, st')) :
    ∀ t ∈ st'.tables, t ∈ st.tables ∨ ∃ r ∈ records, r.name = t.name := by
  induction records generalizing cur a b c st with
  | nil =>
    unfold scanLoop at h
    simp only [Except.ok.injEq, Prod.mk.injEq] at h
    rw [← h.2]
    exact fun t ht => Or.inl ht
  | cons record rest ih =>
    unfold scanLoop at h
    cases hs : schemaStep source_id cur record.schema a st with
    | error e =>
      rw [hs] at h
      simp at h
    | ok tr =>
      obtain ⟨cur', a', st1⟩ := tr
      rw [hs] at h
      dsimp only at h
      cases hat : add_table record.name cur'.id st1 with
      | error e =>
        rw [hat] at h
        simp at h
      | ok pr2 =>
        obtain ⟨tbl, st2⟩ := pr2
        rw [hat] at h
        dsimp only at h
        cases hsc : scanColumns tbl.id record.columns 0 c st2 with
        | error e =>
          rw [hsc] at h
          simp at h
        | ok pr3 =>
          obtain ⟨c', st3⟩ := pr3
          rw [hsc] at h
          dsimp only at h
          intro t ht
          rcases ih cur' a' (b + 1) c' st3 h t ht with h3 | ⟨r, hr, hrn⟩
          · rw [scanColumns_tables tbl.id record.columns 0 c st2 c' st3 hsc] at h3
            rcases add_table_mem record.name cur'.id st1 tbl st2 hat t h3 with h1 | hn
            · rw [schemaStep_tables source_id cur record.schema a st cur' a' st1 hs] at h1
              exact Or.inl h1
            · exact Or.inr ⟨record, List.mem_cons_self _ _, hn.symm⟩
          · exact Or.inr ⟨r, List.mem_cons_of_mem _ hr, hrn⟩

/-- C4: a scan whose schema- and table-level filters retain zero records
fails with `NoMatchesError` (translated by `scan_sources` from the
`StopIteration` of the first `next` on the filtered stream) with the
store untouched, rather than returning zero counts; and on a successful
scan every table row either pre-existed or is named by a retained
(filter-passing) record — skipped records are never upserted. -/
theorem scan_no_matches_signals :
    (∀ (source_id : Nat) (p : ScanPatterns) (records : List TableMetadata)
        (st : CatalogState),
      _filter_rows p records = [] →
      scan_source source_id p records st = .error .noMatchesError) ∧
    (∀ (source_id : Nat) (p : ScanPatterns) (records : List TableMetadata)
        (st : CatalogState) (cnt : Nat × Nat × Nat) (st' : CatalogState),
      scan_source source_id p records st = .ok (cnt, st') →
      ∀ t ∈ st'.tables, t ∈ st.tables ∨
        ∃ r ∈ _filter_rows p records, r.name = t.name) := by
  constructor
  · intro sid p records st hfil
    unfold scan_source scan
    rw [hfil]
  · intro sid p records st cnt st' h
    unfold scan_source at h
    cases hsc : scan sid p records st with
    | error e =>
      rw [hsc] at h
      cases e <;> simp at h
    | ok pr =>
      rw [hsc] at h
      unfold scan at hsc
      cases hfil : _filter_rows p records with
      | nil =>
        rw [hfil] at hsc
        simp at hsc
      | cons record rest =>
        rw [hfil] at hsc
        dsimp only at hsc
        cases hadd : add_schema record.schema sid st with
        | error e =>
          rw [hadd] at hsc
          simp at hsc
        | ok pr2 =>
          obtain ⟨schema0, st1⟩ := pr2
          rw [hadd] at hsc
          dsimp only at hsc
          obtain ⟨a, b⟩ := pr
          simp only [Except.ok.injEq, Prod.mk.injEq] at h
          obtain ⟨h1, h2⟩ := h
          rw [← h2]
          intro t ht
          rcases scanLoop_tables sid schema0 (record :: rest) 1 0 0 st1 a b hsc
              t ht with h3 | hex
          · rw [add_schema_tables record.schema sid st schema0 st1 hadd] at h3
            exact Or.inl h3
          · exact Or.inr hex

/-- Witness for C4: one extracted record whose schema matches no include
pattern; the scan signals `NoMatchesError`. -/
theorem scan_no_matches_signals_witness :
    scan_source 1 ⟨some ["zzz"], none, none, none⟩
      [⟨"sch", "t", [⟨"a", "int"⟩]⟩] CatalogState.empty = .error .noMatchesError :=
  scan_no_matches_signals.1 1 ⟨some ["zzz"], none, none, none⟩
    [⟨"sch", "t", [⟨"a", "int"⟩]⟩] CatalogState.empty (by decide)

theorem scanColumns_fresh :
    ∀ (cols : List ColumnMetadata) (table_id k cc : Nat) (st : CatalogState),
      (cols.map (fun c => c.name)).Nodup →
      (∀ c ∈ cols, ∀ r ∈ st.columns, ¬(r.name = c.name ∧ r.table_id = table_id)) →
      ∃ st', scanColumns table_id cols k cc st = .ok (cc + cols.length, st') ∧
        (∀ r ∈ st.columns, r ∈ st'.columns) ∧
        ∀ i (h : i < cols.length), ∃ row ∈ st'.columns,
          row.table_id = table_id ∧ row.name = (cols.get ⟨i, h⟩).name ∧
          row.data_type = (cols.get ⟨i, h⟩).type ∧ row.sort_order = k + i := by
  intro cols
  induction cols with
  | nil =>
    intro table_id k cc st hnd hfresh
    exact ⟨st, by simp [scanColumns], fun r hr => hr, fun i h => absurd h (by simp)⟩
  | cons c rest ih =>
    intro table_id k cc st hnd hfresh
    have hanyF : st.columns.any
        (fun r => r.name == c.name && r.table_id == table_id) = false := by
      cases hA : st.columns.any (fun r => r.name == c.name && r.table_id == table_id) with
      | false => rfl
      | true =>
        obtain ⟨x, hx, hpx⟩ := List.any_eq_true.mp hA
        simp only [Bool.and_eq_true, beq_iff_eq] at hpx
        exact absurd hpx (hfresh c (List.mem_cons_self _ _) x hx)
    have hstep : add_column c.name c.type k table_id st =
        .ok ({ id := nextId (st.columns.map (·.id)), name := c.name,
               data_type := c.type, sort_order := k, table_id := table_id },
             { st with columns := st.columns ++
               [{ id := nextId (st.columns.map (·.id)), name := c.name,
                  data_type := c.type, sort_order := k, table_id := table_id }] }) := by
      unfold add_column _create
      rw [if_neg (by rw [hanyF]; simp)]
    have hnd' : (rest.map (fun c => c.name)).Nodup := (List.nodup_cons.mp hnd).2
    have hfresh' : ∀ c' ∈ rest,
        ∀ r ∈ ({ st with columns := st.columns ++
            [{ id := nextId (st.columns.map (·.id)), name := c.name,
               data_type := c.type, sort_order := k,
               table_id := table_id }] } : CatalogState).columns,
        ¬(r.name = c'.name ∧ r.table_id = table_id) := by
      intro c' hc' r hr
      rcases List.mem_append.mp hr with hold | hnew
      · exact hfresh c' (List.mem_cons_of_mem _ hc') r hold
      · rcases List.mem_singleton.mp hnew with rfl
        intro hcon
        have hcn : c.name = c'.name := hcon.1
        exact (List.nodup_cons.mp hnd).1 (List.mem_map.mpr ⟨c', hc', hcn.symm⟩)
    obtain ⟨st', hrun, hmono, hprop⟩ := ih table_id (k + 1) (cc + 1) _ hnd' hfresh'
    refine ⟨st', ?_, ?_, ?_⟩
    · unfold scanColumns
      rw [hstep]
      dsimp only
      have hlen : cc + (c :: rest).length = cc + 1 + rest.length := by
        simp only [List.length_cons]
        omega
      rw [hlen]
      exact hrun
    · intro r hr
      exact hmono r (List.mem_append.mpr (Or.inl hr))
    · intro i h
      cases i with
      | zero =>
        have hrmem :
            ({ id := nextId (st.columns.map (·.id)), name := c.name,
               data_type := c.type, sort_order := k, table_id := table_id } :
              ColumnRow) ∈ st'.columns :=
          hmono _ (List.mem_append.mpr (Or.inr (List.mem_singleton.mpr rfl)))
        exact ⟨_, hrmem, rfl, rfl, rfl, rfl⟩
      | succ j =>
        have hj : j < rest.length := by
          simp only [List.length_cons] at h
          omega
        obtain ⟨row, hrowmem, ht, hn, hd, hs⟩ := hprop j hj
        refine ⟨row, hrowmem, ht, hn, hd, ?_⟩
        exact hs.trans (by omega)

/-- C5: the column loop of `DbScanner.scan` upserts each column of a
retained record in the order received, with `sort_order` equal to its
0-based position in the record's column list (the loop index restarts at
0 per record: `scanLoop` invokes `scanColumns` with `index = 0` for every
table), independent of surrogate-id allocation.  Hypotheses: the record's
column names are pairwise distinct and not yet present for this table
(so every upsert is a genuine insertion). -/
theorem scan_sort_order_positions :
    ∀ (table_id cc : Nat) (cols : List ColumnMetadata) (st : CatalogState),
      (cols.map (fun c => c.name)).Nodup →
      (∀ c ∈ cols, ∀ r ∈ st.columns, ¬(r.name = c.name ∧ r.table_id = table_id)) →
      ∃ st', scanColumns table_id cols 0 cc st = .ok (cc + cols.length, st') ∧
        ∀ i (h : i < cols.length), ∃ row ∈ st'.columns,
          row.table_id = table_id ∧ row.name = (cols.get ⟨i, h⟩).name ∧
          row.data_type = (cols.get ⟨i, h⟩).type ∧ row.sort_order = i := by
  intro table_id cc cols st hnd hfresh
  obtain ⟨st', hrun, _, hprop⟩ := scanColumns_fresh cols table_id 0 cc st hnd hfresh
  refine ⟨st', hrun, ?_⟩
  intro i h
  obtain ⟨row, hmem, ht, hn, hd, hs⟩ := hprop i h
  exact ⟨row, hmem, ht, hn, hd, hs.trans (Nat.zero_add i)⟩

/-- Witness for C5: columns `[x, y, z]` of a fresh table receive
`sort_order` 0, 1, 2. -/
theorem scan_sort_order_positions_witness :
    ∃ st' : CatalogState, scanColumns 7
        [⟨"x", "int"⟩, ⟨"y", "text"⟩, ⟨"z", "int"⟩] 0 0 CatalogState.empty =
        .ok (0 + 3, st') ∧
      ∀ i (h : i < 3), ∃ row ∈ st'.columns,
        row.table_id = 7 ∧
        row.name = (([⟨"x", "int"⟩, ⟨"y", "text"⟩, ⟨"z", "int"⟩] :
          List ColumnMetadata).get ⟨i, h⟩).name ∧
        row.data_type = (([⟨"x", "int"⟩, ⟨"y", "text"⟩, ⟨"z", "int"⟩] :
          List ColumnMetadata).get ⟨i, h⟩).type ∧
        row.sort_order = i :=
  scan_sort_order_positions 7 0 [⟨"x", "int"⟩, ⟨"y", "text"⟩, ⟨"z", "int"⟩]
    CatalogState.empty (by decide) (by decide)

/-- C9: the `Catalog` class defines `managed_session` but no
`commit_context` attribute, so every registration helper that enters
`with catalog.commit_context` — the postgresql, mysql, redshift,
snowflake, athena and bigquery ones — raises `AttributeError` at the
attribute lookup, before any database operation, for every input;
`add_sqlite_source`, which enters `managed_session`, succeeds. -/
theorem commit_context_helpers_raise :
    hasAttr "commit_context" = false ∧
    hasAttr "managed_session" = true ∧
    (∀ (name username password database uri : String) (port : Option Nat)
        (st : CatalogState),
      add_postgresql_source name username password database uri port st =
        .error .attributeError) ∧
    (∀ (name username password database uri : String) (port : Option Nat)
        (st : CatalogState),
      add_mysql_source name username password database uri port st =
        .error .attributeError) ∧
    (∀ (name username password database uri : String) (port : Option Nat)
        (st : CatalogState),
      add_redshift_source name username password database uri port st =
        .error .attributeError) ∧
    (∀ (name account username password database warehouse role : String)
        (st : CatalogState),
      add_snowflake_source name account username password database warehouse role st =
        .error .attributeError) ∧
    (∀ (name region_name s3_staging_dir : String) (k1 k2 : Option String)
        (st : CatalogState),
      add_athena_source name region_name s3_staging_dir k1 k2 st =
        .error .attributeError) ∧
    (∀ (name username project_id key_path : String) (st : CatalogState),
      add_bigquery_source name username project_id key_path st =
        .error .attributeError) ∧
    add_sqlite_source "s" "/path/db" CatalogState.empty =
      .ok (⟨1, "s", "sqlite", [("uri", "/path/db")]⟩,
        { CatalogState.empty with
          sources := [⟨1, "s", "sqlite", [("uri", "/path/db")]⟩] }) := by
  have hcc : hasAttr "commit_context" = false := by decide
  have hms : hasAttr "managed_session" = true := by decide
  refine ⟨hcc, hms, ?_, ?_, ?_, ?_, ?_, ?_, ?_⟩
  · intro name username password database uri port st
    simp [add_postgresql_source, hcc]
  · intro name username password database uri port st
    simp [add_mysql_source, hcc]
  · intro name username password database uri port st
    simp [add_redshift_source, hcc]
  · intro name account username password database warehouse role st
    simp [add_snowflake_source, hcc]
  · intro name region_name s3_staging_dir k1 k2 st
    simp [add_athena_source, hcc]
  · intro name username project_id key_path st
    simp [add_bigquery_source, hcc]
  · rfl

end DbCat
